import Mathlib

/-
  Verification of the `Router` class of magic-router (src/router.js),
  a library that converts a multi-page site into a single-page
  application by intercepting link clicks, fetching replacement markup,
  swapping the document body and re-running scripts.

  The JavaScript is shallowly embedded: DOM elements become records
  whose `sid` field plays the role of object identity, the mutable
  document/history/registry state becomes an explicit `RouterState`,
  promise rejection becomes `Except`, and the small regular-expression
  dialect actually produced by `checkRoutes` (literal characters plus
  `.` as "any single character", with the case-insensitive flag) is
  given an executable matcher.
-/

namespace MagicRouter

/-- A script element. `sid` models JavaScript object identity; the other
fields model the `src`, `textContent`, `innerText` and `type` properties
read by router.js. -/
structure ScriptEl where
  sid : Nat
  src : String
  textContent : String
  innerText : String
  stype : String
deriving DecidableEq

/-- The document body: `marker` stands for all non-script content (so a
body swap is observable), `scripts` are the script elements in the body,
in document order. -/
structure DomBody where
  marker : Nat
  scripts : List ScriptEl
deriving DecidableEq

/-- A document (the live one, or one produced by `DOMParser`): head
scripts, body, title. -/
structure DomDoc where
  headScripts : List ScriptEl
  body : DomBody
  title : String
deriving DecidableEq

/-- One entry of the browser history stack, as pushed by
`history.pushState({url}, document.title, url)`. -/
structure HistoryEntry where
  url : String
  title : String
deriving DecidableEq

/-- The mutable state touched by the Router: the live document, the
history stack, the `scriptsStore` registry, the boot-time
`initialScripts` snapshot, the `console.error` log, and a fresh-identity
supply for `document.createElement`. -/
structure RouterState where
  doc : DomDoc
  history : List HistoryEntry
  scriptsStore : List ScriptEl
  initialScripts : List ScriptEl
  log : List String
  nextId : Nat
deriving DecidableEq

/-- An anchor element as seen by `checkRoutes` when applied with the
link as `this`: its `pathname` and whether `dataset` owns a `noSpa`
property. -/
structure LinkEl where
  pathname : String
  noSpa : Bool
deriving DecidableEq

/- ## Route matching (`checkRoutes`, `enableSPA`) -/

/-- A token of the regular expressions `checkRoutes` builds: after the
wildcard is deleted, the remaining pattern characters are either `.`
(any single character) or literals. -/
inductive RxTok where
  | anyChar : RxTok
  | lit : Char → RxTok
deriving DecidableEq

/-- Compile a pattern string (already stripped of its wildcard) into
tokens, as `new RegExp(pattern, 'i')` reads it for patterns whose only
metacharacter is `.`. -/
def rxCompile (p : String) : List RxTok :=
  p.data.map (fun c => if c = '.' then RxTok.anyChar else RxTok.lit c)

/-- Does the token list match a prefix of the character list?  Literal
comparison is case-insensitive ('i' flag). -/
def rxMatchHere : List RxTok → List Char → Bool
  | [], _ => true
  | _ :: _, [] => false
  | RxTok.anyChar :: ts, _ :: cs => rxMatchHere ts cs
  | RxTok.lit l :: ts, c :: cs => (l.toLower = c.toLower) && rxMatchHere ts cs

/-- Unanchored search, as `RegExp.prototype.test` performs: try every
suffix. -/
def rxSearch (toks : List RxTok) : List Char → Bool
  | [] => rxMatchHere toks []
  | c :: cs => rxMatchHere toks (c :: cs) || rxSearch toks cs

/-- Evaluation of `new RegExp(pat, 'i').test(s)` for patterns in the embedded
dialect. -/
def jsRegexTestI (pat s : String) : Bool :=
  rxSearch (rxCompile pat) s.data

/-- Semantics of `String.prototype.replace('*', '')`: delete the first `*` only. -/
def replaceFirstStar : List Char → List Char
  | [] => []
  | c :: cs => if c = '*' then cs else c :: replaceFirstStar cs

/-- Wildcard removal, `route.replace('*', '')`. -/
def stripStar (p : String) : String :=
  String.mk (replaceFirstStar p.data)

/-- Helper for `Array.prototype.findIndex`, returning -1 when nothing matches. -/
def jsFindIndexAux {α : Type} (p : α → Bool) : List α → Nat → Int
  | [], _ => -1
  | a :: as, i => if p a then (i : Int) else jsFindIndexAux p as (i + 1)

/-- Semantics of `routes.findIndex(pred)`. -/
def jsFindIndex {α : Type} (p : α → Bool) (l : List α) : Int :=
  jsFindIndexAux p l 0

/-- Function `checkRoutes` from router.js, applied with the link as `this`
(`this.checkRoutes.apply(link, [this.routes])` in `enableSPA`):
`!!~routes.findIndex(route => new RegExp(route.replace('*',''), 'i')
.test(this.pathname)) && !this.dataset.hasOwnProperty('noSpa')`.
`this.pathname` is therefore the link's own pathname. -/
def checkRoutes (link : LinkEl) (routes : List String) : Bool :=
  (jsFindIndex (fun route => jsRegexTestI (stripStar route) link.pathname) routes != -1)
    && !link.noSpa

/-- The predicate `enableSPA` filters `document.links` with.  The
current document's path is passed in only so that claims about it can
be stated: the source applies `checkRoutes` with the link as `this`, so
the document path plays no role. -/
def enableSPAFilter (docPath : String) (link : LinkEl) (routes : List String) : Bool :=
  checkRoutes link routes

/-- Modelled from the spec: eligibility as the spec words it, "a link
is eligible if any pattern matches the current document's path AND the
link does not carry an explicit opt-out marker".  Used only to compare
the spec's description with the code. -/
def eligibleByDocPathSpec (docPath : String) (link : LinkEl) (routes : List String) : Bool :=
  routes.any (fun r => jsRegexTestI (stripStar r) docPath) && !link.noSpa

/-- Modelled from the spec: case-insensitive plain-substring
containment of `needle` in `hay` (the spec's "contains the non-wildcard
portion of `p` as a substring, case-insensitively"). -/
def startsWithCI : List Char → List Char → Bool
  | [], _ => true
  | _ :: _, [] => false
  | n :: ns, h :: hs => (n.toLower = h.toLower) && startsWithCI ns hs

/-- Modelled from the spec: `needle` occurs somewhere in `hay`,
case-insensitively, every character taken literally. -/
def containsCI (needle : List Char) : List Char → Bool
  | [] => startsWithCI needle []
  | c :: cs => startsWithCI needle (c :: cs) || containsCI needle cs

/-- Modelled from the spec, for C2: eligibility by literal substring
containment of the pattern's non-wildcard portion. -/
def eligibleSubstrC2 (p s : String) : Bool :=
  containsCI (stripStar p).data s.data

/-- Independent formulation of "some position of `s` matches the
non-wildcard portion of `p`, with `.` matching any single character":
stated with an explicit search over all start positions, to be proved
equal to what `checkRoutes` computes. -/
def eligibleAmendedC2 (p s : String) : Bool :=
  (List.range (s.data.length + 1)).any
    (fun i => rxMatchHere (rxCompile (stripStar p)) (s.data.drop i))

end MagicRouter

namespace MagicRouter

/- ## Fetch (`getPage`) -/

/-- Outcome of `response.text()`: a decoded string, or a rejection. -/
inductive TextResult where
  | okText : String → TextResult
  | decodeFailure : TextResult
deriving DecidableEq

/-- A fetch `Response`: status, statusText, and what `.text()` yields. -/
structure HttpResponse where
  status : Nat
  statusText : String
  body : TextResult
deriving DecidableEq

/-- Property `response.ok`: status in the 2xx range. -/
def HttpResponse.respOk (r : HttpResponse) : Bool :=
  decide (200 ≤ r.status) && decide (r.status ≤ 299)

/-- What `fetch(url)` settles to: a rejection (network error) or a
response object. -/
inductive FetchOutcome where
  | networkError : String → FetchOutcome
  | response : HttpResponse → FetchOutcome
deriving DecidableEq

/-- The `Error` value thrown by `getPage` (or by the environment):
`message`, and the `status`/`response` properties `getPage` attaches
when it constructs the error itself. -/
structure JsError where
  message : String
  status : Option Nat
  response : Option HttpResponse
deriving DecidableEq

/-- What the `getPage` promise can resolve with: the decoded text, or —
when decoding fails on an ok response — the response object itself
(`response.text().catch(() => response)`). -/
inductive PageResult where
  | text : String → PageResult
  | responseObj : HttpResponse → PageResult
deriving DecidableEq

/-- Function `getPage` from router.js: on an ok response return the decoded
text, falling back to the response object if decoding rejects; on a
non-2xx response throw an error carrying statusText, status and the
response; a fetch rejection propagates unchanged. -/
def getPage : FetchOutcome → Except JsError PageResult
  | FetchOutcome.networkError m => Except.error ⟨m, none, none⟩
  | FetchOutcome.response r =>
    if r.respOk then
      match r.body with
      | TextResult.okText s => Except.ok (PageResult.text s)
      | TextResult.decodeFailure => Except.ok (PageResult.responseObj r)
    else
      Except.error ⟨r.statusText, some r.status, some r⟩

/-- What `parseHTML` receives as its string argument: JavaScript
coerces a `Response` object passed where a string is expected to
"[object Response]". -/
def pageResultToString : PageResult → String
  | PageResult.text s => s
  | PageResult.responseObj _ => "[object Response]"

/- ## Script lifecycle (`isNotInitialScript`, `loadHeadScripts`,
`loadBodyScripts`, `runScripts`, `clear`) -/

/-- Function `isNotInitialScript` from router.js — note the disjunction of the
two negations:
`!initialScripts.some(i => i.src === sc.src) ||
 !initialScripts.some(i => i.textContent === sc.textContent)`. -/
def isNotInitialScript (st : RouterState) (sc : ScriptEl) : Bool :=
  !(st.initialScripts.any fun i => i.src == sc.src)
    || !(st.initialScripts.any fun i => i.textContent == sc.textContent)

/-- Function `loadHeadScripts`: push onto `scriptsStore` and
`document.head.appendChild($sc)` when `isNotInitialScript` holds; skip
otherwise.  `appendChild` moves the element: it is detached from
wherever it currently sits and appended at the end of the head. -/
def loadHeadScripts (st : RouterState) (sc : ScriptEl) : RouterState :=
  if isNotInitialScript st sc then
    { st with
      scriptsStore := st.scriptsStore ++ [sc]
      doc := { st.doc with
        headScripts := (st.doc.headScripts.filter fun x => x.sid != sc.sid) ++ [sc]
        body := { st.doc.body with
          scripts := st.doc.body.scripts.filter fun x => x.sid != sc.sid } } }
  else
    st

/-- The element `loadBodyScripts` creates: a fresh identity from
`document.createElement`, `type` defaulted to text/javascript when the
candidate's is empty (`$sc.type || 'text/javascript'`), and
`$sc.src ? $script.src = $sc.src : $script.textContent = $sc.innerText`. -/
def freshBodyScript (st : RouterState) (sc : ScriptEl) : ScriptEl :=
  { sid := st.nextId
    src := if sc.src != "" then sc.src else ""
    textContent := if sc.src != "" then "" else sc.innerText
    innerText := if sc.src != "" then "" else sc.innerText
    stype := if sc.stype == "" then "text/javascript" else sc.stype }

/-- Effect of `parent.insertBefore(fresh, sc); sc.remove()`: replace the first
element with the candidate's identity by the fresh element. -/
def insertBeforeThenRemove (l : List ScriptEl) (sid : Nat) (fresh : ScriptEl) : List ScriptEl :=
  match l with
  | [] => []
  | x :: xs => if x.sid == sid then fresh :: xs else x :: insertBeforeThenRemove xs sid fresh

/-- Function `loadBodyScripts`: rebuild the candidate in place inside the live
body and consume one fresh identity. -/
def loadBodyScripts (st : RouterState) (sc : ScriptEl) : RouterState :=
  { st with
    doc := { st.doc with
      body := { st.doc.body with
        scripts := insertBeforeThenRemove st.doc.body.scripts sc.sid (freshBodyScript st sc) } }
    nextId := st.nextId + 1 }

/-- Value of `$sc.parentNode.tagName` at the moment the candidate list is
snapshotted. -/
inductive ParentTag where
  | headTag : ParentTag
  | bodyTag : ParentTag
  | otherTag : ParentTag
deriving DecidableEq

/-- Function `runScripts`: dispatch each candidate on its parent's tag — HEAD to
`loadHeadScripts`, BODY to `loadBodyScripts`, anything else to the
no-op default. -/
def runScripts (st : RouterState) (cands : List (ParentTag × ScriptEl)) : RouterState :=
  cands.foldl
    (fun s c =>
      match c.1 with
      | ParentTag.headTag => loadHeadScripts s c.2
      | ParentTag.bodyTag => loadBodyScripts s c.2
      | ParentTag.otherTag => s)
    st

/-- Function `clear`: `this.scriptsStore.forEach($sc => $sc.remove())` — every
element ever stored is detached from the document (head or body),
while the registry itself is left as it is. -/
def clear (st : RouterState) : RouterState :=
  { st with
    doc := { st.doc with
      headScripts :=
        st.doc.headScripts.filter fun s => !(st.scriptsStore.any fun t => t.sid == s.sid)
      body := { st.doc.body with
        scripts :=
          st.doc.body.scripts.filter fun s => !(st.scriptsStore.any fun t => t.sid == s.sid) } } }

/-- Function `loadHTML`: `document.body = $html.body; document.title =
$html.title` — the parsed body is adopted into the live document. -/
def loadHTML (st : RouterState) (html : DomDoc) : RouterState :=
  { st with doc := { st.doc with body := html.body, title := html.title } }

/-- Effect of `history.pushState({url}, document.title, url)`. -/
def pushState (st : RouterState) (url : String) : RouterState :=
  { st with history := st.history ++ [⟨url, st.doc.title⟩] }

/- ## Navigation (`navigate`, popstate) -/

/-- What `navigate` receives: a plain path string, or a click event on
a link (in which case `getUrl` reads `currentTarget.pathname`). -/
inductive NavInput where
  | path : String → NavInput
  | linkEvent : String → NavInput
deriving DecidableEq

/-- Function `getUrl`: `url.target ? url.currentTarget.pathname : url`. -/
def getUrl : NavInput → String
  | NavInput.path s => s
  | NavInput.linkEvent p => p

/-- The body of `navigate`'s `.then` callback: parse, `clear()`,
`loadHTML($html)`, `runScripts(...document.scripts, ...$html.scripts)`,
`enableSPA()`, then push the history entry.  At the moment the spreads
are evaluated the body has already been swapped, so `document.scripts`
is the (cleared) live head followed by the new body's scripts, and
`$html.scripts` is what remains in the parsed document — its head
scripts, the body having been adopted away.  `enableSPA` only attaches
listeners and touches none of the modelled state. -/
def renderPipeline (parse : String → DomDoc) (pr : PageResult) (url : String)
    (st : RouterState) : RouterState :=
  let html := parse (pageResultToString pr)
  let st1 := loadHTML (clear st) html
  let cands :=
    (st1.doc.headScripts.map fun s => (ParentTag.headTag, s))
      ++ (st1.doc.body.scripts.map fun s => (ParentTag.bodyTag, s))
      ++ (html.headScripts.map fun s => (ParentTag.headTag, s))
  pushState (runScripts st1 cands) url

/-- The promise chain of `navigate` before its `.catch`: either
`getPage` rejects, or the whole `.then` body runs. -/
def navigateUncaught (parse : String → DomDoc) (fetchFn : String → FetchOutcome)
    (input : NavInput) (st : RouterState) : Except JsError RouterState :=
  match getPage (fetchFn (getUrl input)) with
  | Except.error e => Except.error e
  | Except.ok pr => Except.ok (renderPipeline parse pr (getUrl input) st)

/-- The `console.error` line of `navigate`'s `.catch`. -/
def fetchErrMsg (m : String) : String :=
  "There has been a problem with your fetch operation: " ++ m

/-- Function `navigate` from router.js, with its `.catch` attached: a rejection
anywhere in the chain becomes one `console.error` entry and nothing
else changes; the caller never sees an exception. -/
def navigate (parse : String → DomDoc) (fetchFn : String → FetchOutcome)
    (input : NavInput) (st : RouterState) : RouterState :=
  match navigateUncaught parse fetchFn input st with
  | Except.ok s => s
  | Except.error e => { st with log := st.log ++ [fetchErrMsg e.message] }

/-- The `state` object a popstate event carries, when any: its `url`
property, when any. -/
structure PopStateObj where
  url : Option String
deriving DecidableEq

/-- A popstate event: `event.state` is null for entries not written by
this router. -/
structure PopEvent where
  state : Option PopStateObj
deriving DecidableEq

/-- The handler installed by `addRouteListener`:
`window.onpopstate = event => this.navigate(event.state.url)`.
When `event.state` is null, reading `.url` throws a TypeError; when
`url` is absent, `navigate(undefined)` throws on `url.target`; both
escape the handler (there is no catch around them). -/
def handlePopstate (parse : String → DomDoc) (fetchFn : String → FetchOutcome)
    (ev : PopEvent) (st : RouterState) : Except JsError RouterState :=
  match ev.state with
  | none =>
    Except.error ⟨"Cannot read properties of null (reading 'url')", none, none⟩
  | some s =>
    match s.url with
    | none =>
      Except.error ⟨"Cannot read properties of undefined (reading 'target')", none, none⟩
    | some u => Except.ok (navigate parse fetchFn (NavInput.path u) st)

/- ## Operation sequences -/

/-- The state-touching operations of the Router, for invariants over
arbitrary call sequences. -/
inductive RouterOp where
  | opClear : RouterOp
  | opLoadHead : ScriptEl → RouterOp
  | opLoadBody : ScriptEl → RouterOp
  | opLoadHTML : DomDoc → RouterOp
  | opRunScripts : List (ParentTag × ScriptEl) → RouterOp
  | opNavigate : NavInput → RouterOp

/-- Apply one operation. -/
def applyOp (parse : String → DomDoc) (fetchFn : String → FetchOutcome) :
    RouterOp → RouterState → RouterState
  | RouterOp.opClear, st => clear st
  | RouterOp.opLoadHead sc, st => loadHeadScripts st sc
  | RouterOp.opLoadBody sc, st => loadBodyScripts st sc
  | RouterOp.opLoadHTML h, st => loadHTML st h
  | RouterOp.opRunScripts cs, st => runScripts st cs
  | RouterOp.opNavigate input, st => navigate parse fetchFn input st

/-- Run a sequence of operations. -/
def runOps (parse : String → DomDoc) (fetchFn : String → FetchOutcome)
    (ops : List RouterOp) (st : RouterState) : RouterState :=
  ops.foldl (fun s o => applyOp parse fetchFn o s) st

/- ## Spec-side definitions and concrete fixtures -/

/-- Modelled from the spec: the identity rule of C4 — source-URL
equality for an external script, textual content equality for an
inline one, against some entry of the boot-time snapshot. -/
def specIdentityMatches (inits : List ScriptEl) (sc : ScriptEl) : Bool :=
  if sc.src != "" then inits.any (fun i => i.src == sc.src)
  else inits.any (fun i => i.textContent == sc.textContent)

/-- Fixture: the page the test parser yields for any markup. -/
def pageDocA : DomDoc := ⟨[], ⟨1, []⟩, "Page A"⟩

/-- Fixture: a parser returning `pageDocA` for any markup. -/
def parse0 : String → DomDoc := fun _ => pageDocA

/-- Fixture: a network that always answers 200 with markup. -/
def fetch0 : String → FetchOutcome :=
  fun _ => FetchOutcome.response ⟨200, "OK", TextResult.okText "<p>a</p>"⟩

/-- Fixture: a boot-time router state with one history entry. -/
def st0 : RouterState := ⟨⟨[], ⟨0, []⟩, "Home"⟩, [⟨"/", "Home"⟩], [], [], [], 100⟩

/-- Fixture: a popstate event whose state carries url `/a.html`. -/
def ev0 : PopEvent := ⟨some ⟨some "/a.html"⟩⟩

/-- Fixture: a 404 response whose text decodes fine. -/
def respNF : HttpResponse := ⟨404, "Not Found", TextResult.okText "missing"⟩

/-- Fixture: a network that always answers 404. -/
def fetchNF : String → FetchOutcome := fun _ => FetchOutcome.response respNF

/-- Fixture: the error `getPage` builds from `respNF`. -/
def errNF : JsError := ⟨"Not Found", some 404, some respNF⟩

/-- Fixture: an initial (boot-time) head script with inline text. -/
def initC4 : ScriptEl :=
  ⟨0, "https://cdn.example/a.js", "window.x = 1;", "window.x = 1;", "text/javascript"⟩

/-- Fixture: a candidate head script with the same source URL as
`initC4` but empty text content. -/
def candC4 : ScriptEl := ⟨7, "https://cdn.example/a.js", "", "", "text/javascript"⟩

/-- Fixture: a router state whose boot snapshot is `[initC4]`. -/
def stC4 : RouterState := ⟨⟨[initC4], ⟨0, []⟩, "T"⟩, [], [], [initC4], [], 50⟩

/-- Fixture: an inline body script candidate. -/
def scC7 : ScriptEl := ⟨3, "", "", "console.log(1)", ""⟩

/-- Fixture: a state whose live body holds exactly `scC7`. -/
def stC7 : RouterState := ⟨⟨[], ⟨2, [scC7]⟩, "T"⟩, [], [], [], [], 30⟩

/-- Fixture: an initial head script for the clear scenarios. -/
def initW : ScriptEl := ⟨0, "init.js", "", "", ""⟩

/-- Fixture: an injected head script for the clear scenarios. -/
def injW : ScriptEl := ⟨5, "inj.js", "", "", ""⟩

/-- Fixture: a state in which `injW` was injected after `initW`. -/
def stC8 : RouterState := ⟨⟨[initW, injW], ⟨0, []⟩, "T"⟩, [], [injW], [initW], [], 9⟩

end MagicRouter

section RouteMatchingLemmas

open MagicRouter

/-- A `findIndex` search misses iff no element satisfies the predicate. -/
theorem jsFindIndexAux_bne {α : Type} (p : α → Bool) (l : List α) (i : Nat) :
    ((jsFindIndexAux p l i) != -1) = l.any p := by
  induction l generalizing i with
  | nil => rfl
  | cons a as ih =>
    simp only [jsFindIndexAux, List.any_cons]
    by_cases h : p a
    · simp only [h, if_true, Bool.true_or]
      simp only [bne_iff_ne, ne_eq]
      omega
    · simp only [h, if_false, Bool.false_or]
      exact ih (i + 1)

/-- The recursive suffix search equals the explicit search over start
positions. -/
theorem rxSearch_eq_range_any (toks : List RxTok) (l : List Char) :
    rxSearch toks l = ((List.range (l.length + 1)).any fun i => rxMatchHere toks (l.drop i)) := by
  induction l with
  | nil =>
    simp [rxSearch, List.range_succ]
  | cons c cs ih =>
    rw [rxSearch, ih]
    conv_rhs => rw [List.length_cons, List.range_succ_eq_map]
    simp only [List.any_cons, List.drop_zero, List.any_map, Function.comp_def,
      List.drop_succ_cons]

end RouteMatchingLemmas

section HelperLemmas

open MagicRouter

/-- Skipping or appending a head script never touches the title, the
history, the log or the initial snapshot. -/
theorem loadHeadScripts_preserves (st : RouterState) (sc : ScriptEl) :
    (loadHeadScripts st sc).doc.title = st.doc.title
    ∧ (loadHeadScripts st sc).history = st.history
    ∧ (loadHeadScripts st sc).log = st.log
    ∧ (loadHeadScripts st sc).initialScripts = st.initialScripts := by
  unfold loadHeadScripts
  split
  · exact ⟨rfl, rfl, rfl, rfl⟩
  · exact ⟨rfl, rfl, rfl, rfl⟩

/-- Rebuilding a body script never touches the title, the history, the
log or the initial snapshot. -/
theorem loadBodyScripts_preserves (st : RouterState) (sc : ScriptEl) :
    (loadBodyScripts st sc).doc.title = st.doc.title
    ∧ (loadBodyScripts st sc).history = st.history
    ∧ (loadBodyScripts st sc).log = st.log
    ∧ (loadBodyScripts st sc).initialScripts = st.initialScripts :=
  ⟨rfl, rfl, rfl, rfl⟩

/-- Script processing never touches the title, the history or the
log. -/
theorem runScripts_preserves (cands : List (ParentTag × ScriptEl)) :
    ∀ st : RouterState,
      (runScripts st cands).doc.title = st.doc.title
      ∧ (runScripts st cands).history = st.history
      ∧ (runScripts st cands).log = st.log := by
  induction cands with
  | nil => intro st; exact ⟨rfl, rfl, rfl⟩
  | cons c rest ih =>
    intro st
    simp only [runScripts, List.foldl_cons] at *
    rcases c with ⟨t, sc⟩
    cases t with
    | headTag =>
      rcases ih (loadHeadScripts st sc) with ⟨h1, h2, h3⟩
      rcases loadHeadScripts_preserves st sc with ⟨g1, g2, g3, _⟩
      exact ⟨h1.trans g1, h2.trans g2, h3.trans g3⟩
    | bodyTag =>
      rcases ih (loadBodyScripts st sc) with ⟨h1, h2, h3⟩
      exact ⟨h1, h2, h3⟩
    | otherTag => exact ih st

/-- Head-script processing appends to the registry; nothing removes
from it. -/
theorem runScripts_store_append (cands : List (ParentTag × ScriptEl)) :
    ∀ st : RouterState,
      ∃ new, (runScripts st cands).scriptsStore = st.scriptsStore ++ new := by
  induction cands with
  | nil => intro st; exact ⟨[], (List.append_nil _).symm⟩
  | cons c rest ih =>
    intro st
    simp only [runScripts, List.foldl_cons] at *
    rcases c with ⟨t, sc⟩
    cases t with
    | headTag =>
      rcases ih (loadHeadScripts st sc) with ⟨new2, h2⟩
      by_cases h : isNotInitialScript st sc
      · refine ⟨[sc] ++ new2, ?_⟩
        rw [h2]
        unfold loadHeadScripts
        rw [if_pos h, List.append_assoc]
      · refine ⟨new2, ?_⟩
        rw [h2]
        unfold loadHeadScripts
        rw [if_neg h]
    | bodyTag => exact ih (loadBodyScripts st sc)
    | otherTag => exact ih st

/-- The history after a successful render: the old stack plus one entry
for the new url, titled with the freshly parsed title. -/
theorem renderPipeline_history (parse : String → DomDoc) (pr : PageResult)
    (url : String) (st : RouterState) :
    (renderPipeline parse pr url st).history
      = st.history ++ [⟨url, (parse (pageResultToString pr)).title⟩] := by
  unfold renderPipeline pushState
  rcases runScripts_preserves
      ((loadHTML (clear st) (parse (pageResultToString pr))).doc.headScripts.map
          (fun s => (ParentTag.headTag, s))
        ++ (loadHTML (clear st) (parse (pageResultToString pr))).doc.body.scripts.map
          (fun s => (ParentTag.bodyTag, s))
        ++ (parse (pageResultToString pr)).headScripts.map
          (fun s => (ParentTag.headTag, s)))
      (loadHTML (clear st) (parse (pageResultToString pr))) with ⟨h1, h2, _⟩
  simp only [h1, h2]
  rfl

/-- The title after a successful render is the parsed page's title. -/
theorem renderPipeline_title (parse : String → DomDoc) (pr : PageResult)
    (url : String) (st : RouterState) :
    (renderPipeline parse pr url st).doc.title
      = (parse (pageResultToString pr)).title := by
  unfold renderPipeline pushState
  rcases runScripts_preserves
      ((loadHTML (clear st) (parse (pageResultToString pr))).doc.headScripts.map
          (fun s => (ParentTag.headTag, s))
        ++ (loadHTML (clear st) (parse (pageResultToString pr))).doc.body.scripts.map
          (fun s => (ParentTag.bodyTag, s))
        ++ (parse (pageResultToString pr)).headScripts.map
          (fun s => (ParentTag.headTag, s)))
      (loadHTML (clear st) (parse (pageResultToString pr))) with ⟨h1, _, _⟩
  exact h1

/-- Filtering twice with one predicate filters once. -/
theorem filter_idem {α : Type} (p : α → Bool) (l : List α) :
    (l.filter p).filter p = l.filter p := by
  induction l with
  | nil => rfl
  | cons a as ih =>
    by_cases h : p a
    · simp [List.filter_cons, h, ih]
    · simp [List.filter_cons, h, ih]

/-- Replacement semantics of insert-before-then-remove when the target
occurs once at a known position. -/
theorem insertBeforeThenRemove_replace (fresh sc : ScriptEl)
    (pre post : List ScriptEl) (hpre : ∀ x ∈ pre, x.sid ≠ sc.sid) :
    insertBeforeThenRemove (pre ++ sc :: post) sc.sid fresh
      = pre ++ fresh :: post := by
  induction pre with
  | nil =>
    simp only [List.nil_append, insertBeforeThenRemove, beq_self_eq_true, if_true]
  | cons a as ih =>
    have ha : (a.sid == sc.sid) = false := by
      have := hpre a (List.mem_cons_self a as)
      simp only [beq_eq_false_iff_ne, ne_eq]
      exact this
    simp only [List.cons_append, insertBeforeThenRemove, ha, Bool.false_eq_true, if_false,
      List.cons.injEq, true_and]
    exact ih (fun x hx => hpre x (List.mem_cons_of_mem a hx))

end HelperLemmas

section Claims

open MagicRouter

/-- C1, counterexample: with patterns `["*.html"]`, a document at
`/index.html` and a link to `/about.php`, the claim's
document-path-based rule makes the link eligible, but the code's link
wiring does not: `checkRoutes` runs with the link as `this`, so it
tests the link's own destination path. -/
theorem checkRoutes_doc_path_counterexample :
    enableSPAFilter "/index.html" ⟨"/about.php", false⟩ ["*.html"] = false
    ∧ eligibleByDocPathSpec "/index.html" ⟨"/about.php", false⟩ ["*.html"] = true := by
  constructor
  · decide
  · decide

/-- C1 (amended): for every link considered during link wiring, route
eligibility is decided by matching the configured patterns against the
clicked link's own destination path (`this.pathname` with `this` bound
to the link), and the current document's path plays no role at all. -/
theorem checkRoutes_uses_link_path :
    ∀ (docPath docPath2 : String) (link : LinkEl) (routes : List String),
      enableSPAFilter docPath link routes = enableSPAFilter docPath2 link routes
      ∧ enableSPAFilter docPath link routes
          = eligibleByDocPathSpec link.pathname link routes := by
  intro d1 d2 link routes
  refine ⟨rfl, ?_⟩
  unfold enableSPAFilter checkRoutes eligibleByDocPathSpec jsFindIndex
  rw [jsFindIndexAux_bne]

/-- C2, counterexample: pattern `*.html` compiles to the regex `.html`
whose `.` matches any character, so the path `/xhtml` is eligible even
though it does not contain `.html` as a literal substring — the
claimed "iff literal substring" fails. -/
theorem checkRoutes_substring_counterexample :
    checkRoutes ⟨"/xhtml", false⟩ ["*.html"] = true
    ∧ eligibleSubstrC2 "*.html" "/xhtml" = false := by
  constructor
  · decide
  · decide

/-- C2 (amended): for every pattern `p` and path `s` with the opt-out
marker absent, eligibility is true iff some position of `s` matches the
non-wildcard portion of `p` case-insensitively with `.` matching any
single character (the portion is used as a regular expression, not as a
literal substring); in particular `*.html` makes `/about.html` eligible
and `/about.php` not eligible. -/
theorem checkRoutes_dot_wildcard_equiv :
    (∀ p s : String, checkRoutes ⟨s, false⟩ [p] = eligibleAmendedC2 p s)
    ∧ checkRoutes ⟨"/about.html", false⟩ ["*.html"] = true
    ∧ checkRoutes ⟨"/about.php", false⟩ ["*.html"] = false := by
  refine ⟨?_, by decide, by decide⟩
  intro p s
  unfold checkRoutes jsFindIndex eligibleAmendedC2
  rw [jsFindIndexAux_bne]
  simp only [List.any_cons, List.any_nil, Bool.or_false, Bool.not_false, Bool.and_true]
  exact rxSearch_eq_range_any _ _

/-- C10: `getPage` resolves with the response object itself when an ok
response's text decoding fails; it rejects exactly on a network error
or a non-2xx status; and in the non-2xx case the rejection error
carries the HTTP status code (and the response). -/
theorem getPage_resolution_spec :
    (∀ r : HttpResponse, r.respOk = true → r.body = TextResult.decodeFailure →
        getPage (FetchOutcome.response r) = Except.ok (PageResult.responseObj r))
    ∧ (∀ o : FetchOutcome, (∃ e, getPage o = Except.error e)
        ↔ ((∃ m, o = FetchOutcome.networkError m)
            ∨ (∃ r, o = FetchOutcome.response r ∧ r.respOk = false)))
    ∧ (∀ r : HttpResponse, r.respOk = false →
        getPage (FetchOutcome.response r)
          = Except.error ⟨r.statusText, some r.status, some r⟩) := by
  refine ⟨?_, ?_, ?_⟩
  · intro r hok hb
    simp only [getPage, hok, if_true, hb]
  · intro o
    constructor
    · rintro ⟨e, he⟩
      cases o with
      | networkError m => exact Or.inl ⟨m, rfl⟩
      | response r =>
        by_cases hok : r.respOk
        · exfalso
          simp only [getPage, hok, if_true] at he
          cases hb : r.body <;> rw [hb] at he <;> exact Except.noConfusion he
        · exact Or.inr ⟨r, rfl, by simpa using hok⟩
    · rintro (⟨m, rfl⟩ | ⟨r, rfl, hok⟩)
      · exact ⟨⟨m, none, none⟩, rfl⟩
      · exact ⟨⟨r.statusText, some r.status, some r⟩, by simp [getPage, hok]⟩
  · intro r hok
    simp [getPage, hok]

/-- C10, witness: a 200 response whose decoding fails makes `getPage`
resolve with the response object. -/
theorem getPage_resolution_spec_witness :
    (⟨200, "OK", TextResult.decodeFailure⟩ : HttpResponse).respOk = true
    ∧ getPage (FetchOutcome.response ⟨200, "OK", TextResult.decodeFailure⟩)
        = Except.ok (PageResult.responseObj ⟨200, "OK", TextResult.decodeFailure⟩) :=
  ⟨by decide, getPage_resolution_spec.1 ⟨200, "OK", TextResult.decodeFailure⟩ (by decide) rfl⟩

end Claims

section ClaimsNavigation

open MagicRouter

/-- Unfolding of `navigate` when the uncaught chain succeeds. -/
theorem navigate_of_uncaught_ok (parse : String → DomDoc) (fetchFn : String → FetchOutcome)
    (input : NavInput) (st s' : RouterState)
    (h : navigateUncaught parse fetchFn input st = Except.ok s') :
    navigate parse fetchFn input st = s' := by
  unfold navigate
  rw [h]

/-- Unfolding of `navigate` when the uncaught chain rejects. -/
theorem navigate_of_uncaught_err (parse : String → DomDoc) (fetchFn : String → FetchOutcome)
    (input : NavInput) (st : RouterState) (e : JsError)
    (h : navigateUncaught parse fetchFn input st = Except.error e) :
    navigate parse fetchFn input st = { st with log := st.log ++ [fetchErrMsg e.message] } := by
  unfold navigate
  rw [h]

/-- C3: when the fetch of a navigation fails (network error or non-2xx
status), the navigation aborts with no document or history or registry
mutation, the rejection is caught (the caller of `navigate` sees no
exception) and converted to one `console.error` diagnostic, the error
carries the HTTP status whenever a response was received, and a
subsequent successful navigation proceeds normally (new history entry,
new title). -/
theorem navigate_failure_aborts (parse : String → DomDoc) (fetchFn : String → FetchOutcome)
    (input : NavInput) (st : RouterState) (e : JsError)
    (hfail : getPage (fetchFn (getUrl input)) = Except.error e) :
    navigate parse fetchFn input st
        = { st with log := st.log ++ [fetchErrMsg e.message] }
    ∧ (navigate parse fetchFn input st).doc = st.doc
    ∧ (navigate parse fetchFn input st).history = st.history
    ∧ (navigate parse fetchFn input st).scriptsStore = st.scriptsStore
    ∧ navigateUncaught parse fetchFn input st = Except.error e
    ∧ (∀ r : HttpResponse, fetchFn (getUrl input) = FetchOutcome.response r →
        e.status = some r.status)
    ∧ (∀ (fetchFn2 : String → FetchOutcome) (input2 : NavInput) (h2 : String),
        getPage (fetchFn2 (getUrl input2)) = Except.ok (PageResult.text h2) →
        (navigate parse fetchFn2 input2 (navigate parse fetchFn input st)).history
            = st.history ++ [⟨getUrl input2, (parse h2).title⟩]
        ∧ (navigate parse fetchFn2 input2 (navigate parse fetchFn input st)).doc.title
            = (parse h2).title) := by
  have hu : navigateUncaught parse fetchFn input st = Except.error e := by
    unfold navigateUncaught
    rw [hfail]
  have hn : navigate parse fetchFn input st
      = { st with log := st.log ++ [fetchErrMsg e.message] } :=
    navigate_of_uncaught_err parse fetchFn input st e hu
  refine ⟨hn, by rw [hn], by rw [hn], by rw [hn], hu, ?_, ?_⟩
  · intro r hr
    rw [hr] at hfail
    by_cases hok : r.respOk = true
    · exfalso
      simp only [getPage, hok, if_true] at hfail
      cases hb : r.body <;> rw [hb] at hfail <;> exact Except.noConfusion hfail
    · simp only [getPage] at hfail
      rw [if_neg hok] at hfail
      injection hfail with h
      rw [← h]
  · intro fetchFn2 input2 h2 hok2
    have hu2 : navigateUncaught parse fetchFn2 input2 (navigate parse fetchFn input st)
        = Except.ok (renderPipeline parse (PageResult.text h2) (getUrl input2)
            (navigate parse fetchFn input st)) := by
      unfold navigateUncaught
      rw [hok2]
    have hn2 : navigate parse fetchFn2 input2 (navigate parse fetchFn input st)
        = renderPipeline parse (PageResult.text h2) (getUrl input2)
            (navigate parse fetchFn input st) :=
      navigate_of_uncaught_ok parse fetchFn2 input2 _ _ hu2
    constructor
    · rw [hn2, renderPipeline_history, hn]
      rfl
    · rw [hn2, renderPipeline_title]
      rfl

/-- C3, witness: navigating to `/missing.html` over a network that
answers 404 leaves the state of `st0` unchanged but for the log, and
a following 200 navigation succeeds. -/
theorem navigate_failure_aborts_witness :
    getPage (fetchNF (getUrl (NavInput.path "/missing.html"))) = Except.error errNF
    ∧ (navigate parse0 fetchNF (NavInput.path "/missing.html") st0
          = { st0 with log := st0.log ++ [fetchErrMsg errNF.message] }
      ∧ (navigate parse0 fetchNF (NavInput.path "/missing.html") st0).doc = st0.doc
      ∧ (navigate parse0 fetchNF (NavInput.path "/missing.html") st0).history = st0.history
      ∧ (navigate parse0 fetchNF (NavInput.path "/missing.html") st0).scriptsStore
          = st0.scriptsStore
      ∧ navigateUncaught parse0 fetchNF (NavInput.path "/missing.html") st0
          = Except.error errNF
      ∧ (∀ r : HttpResponse,
          fetchNF (getUrl (NavInput.path "/missing.html")) = FetchOutcome.response r →
          errNF.status = some r.status)
      ∧ (∀ (fetchFn2 : String → FetchOutcome) (input2 : NavInput) (h2 : String),
          getPage (fetchFn2 (getUrl input2)) = Except.ok (PageResult.text h2) →
          (navigate parse0 fetchFn2 input2
              (navigate parse0 fetchNF (NavInput.path "/missing.html") st0)).history
              = st0.history ++ [⟨getUrl input2, (parse0 h2).title⟩]
          ∧ (navigate parse0 fetchFn2 input2
              (navigate parse0 fetchNF (NavInput.path "/missing.html") st0)).doc.title
              = (parse0 h2).title)) :=
  ⟨rfl, navigate_failure_aborts parse0 fetchNF (NavInput.path "/missing.html") st0 errNF rfl⟩

/-- C5 (code-bug evaluation): the popstate handler with state
`{url: "/a.html"}` is literally a `navigate("/a.html")` call — the same
fetch-swap-execute pipeline — and on success that call pushes a fresh
history entry, so back/forward handling does re-push a duplicate
entry, contrary to the claim. -/
theorem popstate_repushes_history :
    handlePopstate parse0 fetch0 ev0 st0
        = Except.ok (navigate parse0 fetch0 (NavInput.path "/a.html") st0)
    ∧ (navigate parse0 fetch0 (NavInput.path "/a.html") st0).history
        = st0.history ++ [⟨"/a.html", "Page A"⟩] := by
  constructor
  · rfl
  · decide

/-- C6 (code-bug evaluation): a popstate event whose `state` payload is
null makes the handler dereference `event.state.url` and throw a
TypeError out of the handler — there is no guard, no no-op, no logged
diagnostic. -/
theorem popstate_null_state_unguarded :
    handlePopstate parse0 fetch0 ⟨none⟩ st0
      = Except.error ⟨"Cannot read properties of null (reading 'url')", none, none⟩ := rfl

end ClaimsNavigation

section ClaimsScripts

open MagicRouter

/-- C4, counterexample: an external candidate whose source URL equals a
snapshot entry's URL but whose (empty) text content matches no snapshot
entry's text is, per the claim's identity rule, to be skipped — yet the
code appends it to the head and records it as injected, because
`isNotInitialScript` requires a src match AND a text match to skip. -/
theorem loadHead_identity_counterexample :
    specIdentityMatches stC4.initialScripts candC4 = true
    ∧ (loadHeadScripts stC4 candC4).scriptsStore = stC4.scriptsStore ++ [candC4]
    ∧ (loadHeadScripts stC4 candC4).doc.headScripts
        = stC4.doc.headScripts ++ [candC4] := by
  refine ⟨by decide, by decide, by decide⟩

/-- C4 (amended): a candidate head script is skipped (not appended, not
recorded) iff its source URL equals some snapshot entry's source URL
AND its text content equals some — possibly different — snapshot
entry's text content; otherwise it is appended to the live head and
recorded as injected. -/
theorem loadHeadScripts_skip_iff_both_match (st : RouterState) (sc : ScriptEl) :
    ((st.initialScripts.any fun i => i.src == sc.src) = true →
     (st.initialScripts.any fun i => i.textContent == sc.textContent) = true →
     loadHeadScripts st sc = st)
    ∧ (((st.initialScripts.any fun i => i.src == sc.src) = false
        ∨ (st.initialScripts.any fun i => i.textContent == sc.textContent) = false) →
       (loadHeadScripts st sc).scriptsStore = st.scriptsStore ++ [sc]
       ∧ (loadHeadScripts st sc).doc.headScripts
           = (st.doc.headScripts.filter fun x => x.sid != sc.sid) ++ [sc]) := by
  constructor
  · intro h1 h2
    have hskip : isNotInitialScript st sc = false := by
      unfold isNotInitialScript
      rw [h1, h2]
      rfl
    simp [loadHeadScripts, hskip]
  · intro h
    have hrun : isNotInitialScript st sc = true := by
      unfold isNotInitialScript
      rcases h with h | h
      · rw [h]
        rfl
      · rw [h]
        simp
    simp [loadHeadScripts, hrun]

/-- C4, witness for the amended statement: a candidate identical to the
snapshot entry (src and text both matching) is skipped. -/
theorem loadHeadScripts_skip_iff_both_match_witness :
    (stC4.initialScripts.any fun i => i.src == initC4.src) = true
    ∧ (stC4.initialScripts.any fun i => i.textContent == initC4.textContent) = true
    ∧ loadHeadScripts stC4 initC4 = stC4 :=
  ⟨by decide, by decide,
    (loadHeadScripts_skip_iff_both_match stC4 initC4).1 (by decide) (by decide)⟩

/-- C7: processing a body script candidate leaves the body with exactly
one freshly created script element standing at the candidate's original
position — its type copied (empty type defaulting to text/javascript),
its source URL copied when the candidate is external, its inline text
copied (from `innerText`) when not — and the inert candidate removed,
with no surviving copy of it. -/
theorem loadBodyScripts_rebuilds (st : RouterState) (pre post : List ScriptEl) (sc : ScriptEl)
    (hbody : st.doc.body.scripts = pre ++ sc :: post)
    (hpre : ∀ x ∈ pre, x.sid ≠ sc.sid)
    (hpost : ∀ x ∈ post, x.sid ≠ sc.sid)
    (hfresh : ∀ x ∈ st.doc.body.scripts, x.sid ≠ st.nextId) :
    (loadBodyScripts st sc).doc.body.scripts = pre ++ freshBodyScript st sc :: post
    ∧ (((loadBodyScripts st sc).doc.body.scripts.filter
          fun x => x.sid == st.nextId).length = 1)
    ∧ (∀ x ∈ (loadBodyScripts st sc).doc.body.scripts, x.sid ≠ sc.sid)
    ∧ (freshBodyScript st sc).stype
        = (if sc.stype == "" then "text/javascript" else sc.stype)
    ∧ (sc.src ≠ "" → (freshBodyScript st sc).src = sc.src
        ∧ (freshBodyScript st sc).textContent = "")
    ∧ (sc.src = "" → (freshBodyScript st sc).src = ""
        ∧ (freshBodyScript st sc).textContent = sc.innerText) := by
  have hscnext : sc.sid ≠ st.nextId := by
    apply hfresh
    rw [hbody]
    exact List.mem_append_right pre (List.mem_cons_self sc post)
  have h1 : (loadBodyScripts st sc).doc.body.scripts
      = pre ++ freshBodyScript st sc :: post := by
    show insertBeforeThenRemove st.doc.body.scripts sc.sid (freshBodyScript st sc)
        = pre ++ freshBodyScript st sc :: post
    rw [hbody]
    exact insertBeforeThenRemove_replace (freshBodyScript st sc) sc pre post hpre
  refine ⟨h1, ?_, ?_, rfl, ?_, ?_⟩
  · rw [h1, List.filter_append, List.filter_cons]
    have hpre0 : pre.filter (fun x => x.sid == st.nextId) = [] := by
      apply List.filter_eq_nil_iff.mpr
      intro x hx
      have : x.sid ≠ st.nextId := by
        apply hfresh
        rw [hbody]
        exact List.mem_append_left _ hx
      simpa using this
    have hpost0 : post.filter (fun x => x.sid == st.nextId) = [] := by
      apply List.filter_eq_nil_iff.mpr
      intro x hx
      have : x.sid ≠ st.nextId := by
        apply hfresh
        rw [hbody]
        exact List.mem_append_right pre (List.mem_cons_of_mem sc hx)
      simpa using this
    have hfsid : ((freshBodyScript st sc).sid == st.nextId) = true := by
      simp [freshBodyScript]
    rw [hpre0, hpost0, hfsid]
    rfl
  · intro x hx
    rw [h1] at hx
    rcases List.mem_append.mp hx with hx | hx
    · exact hpre x hx
    · rcases List.mem_cons.mp hx with hx | hx
      · rw [hx]
        show st.nextId ≠ sc.sid
        exact fun hcon => hscnext hcon.symm
      · exact hpost x hx
  · intro hsrc
    have hb : (sc.src != "") = true := by simpa using hsrc
    constructor
    · show (if (sc.src != "") = true then sc.src else "") = sc.src
      rw [hb]
      rfl
    · show (if (sc.src != "") = true then "" else sc.innerText) = ""
      rw [hb]
      rfl
  · intro hsrc
    have hb : (sc.src != "") = false := by simpa using hsrc
    constructor
    · show (if (sc.src != "") = true then sc.src else "") = ""
      rw [hb]
      rfl
    · show (if (sc.src != "") = true then "" else sc.innerText) = sc.innerText
      rw [hb]
      rfl

/-- C7, witness: rebuilding the single inline body script of `stC7`. -/
theorem loadBodyScripts_rebuilds_witness :
    stC7.doc.body.scripts = [] ++ scC7 :: []
    ∧ ((loadBodyScripts stC7 scC7).doc.body.scripts
          = [] ++ freshBodyScript stC7 scC7 :: []
      ∧ (((loadBodyScripts stC7 scC7).doc.body.scripts.filter
            fun x => x.sid == stC7.nextId).length = 1)
      ∧ (∀ x ∈ (loadBodyScripts stC7 scC7).doc.body.scripts, x.sid ≠ scC7.sid)
      ∧ (freshBodyScript stC7 scC7).stype
          = (if scC7.stype == "" then "text/javascript" else scC7.stype)
      ∧ (scC7.src ≠ "" → (freshBodyScript stC7 scC7).src = scC7.src
          ∧ (freshBodyScript stC7 scC7).textContent = "")
      ∧ (scC7.src = "" → (freshBodyScript stC7 scC7).src = ""
          ∧ (freshBodyScript stC7 scC7).textContent = scC7.innerText)) :=
  ⟨by decide,
    loadBodyScripts_rebuilds stC7 [] [] scC7 (by decide) (by decide) (by decide) (by decide)⟩

/-- C8: after `clear()` no script with the identity of a stored
(injected) script remains in the live head, initial-snapshot head
scripts (disjoint in identity from the injected ones) survive
untouched, and a second `clear()` immediately after the first changes
nothing at all. -/
theorem clear_removes_injected (st : RouterState)
    (hdisj : ∀ s ∈ st.scriptsStore, ∀ t ∈ st.initialScripts, s.sid ≠ t.sid) :
    (∀ s ∈ st.scriptsStore, ∀ u ∈ (clear st).doc.headScripts, u.sid ≠ s.sid)
    ∧ (∀ t ∈ st.doc.headScripts, t ∈ st.initialScripts → t ∈ (clear st).doc.headScripts)
    ∧ clear (clear st) = clear st := by
  refine ⟨?_, ?_, ?_⟩
  · intro s hs u hu
    rcases List.mem_filter.mp hu with ⟨hu1, hu2⟩
    simp only [Bool.not_eq_true', List.any_eq_false, beq_iff_eq] at hu2
    exact fun hcon => hu2 s hs hcon.symm
  · intro t ht hinit
    apply List.mem_filter.mpr
    refine ⟨ht, ?_⟩
    simp only [Bool.not_eq_true', List.any_eq_false, beq_iff_eq]
    intro s hs
    exact hdisj s hs t hinit
  · obtain ⟨⟨hd, ⟨mk, bs⟩, ti⟩, hist, store, inits, lg, nid⟩ := st
    simp only [clear]
    rw [filter_idem, filter_idem]

/-- C8, witness: clearing `stC8` removes `injW` from the head, keeps
`initW`, and a second clear is a no-op. -/
theorem clear_removes_injected_witness :
    (∀ s ∈ stC8.scriptsStore, ∀ t ∈ stC8.initialScripts, s.sid ≠ t.sid)
    ∧ ((∀ s ∈ stC8.scriptsStore, ∀ u ∈ (clear stC8).doc.headScripts, u.sid ≠ s.sid)
      ∧ (∀ t ∈ stC8.doc.headScripts, t ∈ stC8.initialScripts →
          t ∈ (clear stC8).doc.headScripts)
      ∧ clear (clear stC8) = clear stC8) :=
  ⟨by decide, clear_removes_injected stC8 (by decide)⟩

/-- Store growth under the render pipeline. -/
theorem renderPipeline_store_append (parse : String → DomDoc) (pr : PageResult)
    (url : String) (st : RouterState) :
    ∃ new, (renderPipeline parse pr url st).scriptsStore = st.scriptsStore ++ new := by
  rcases runScripts_store_append
      ((loadHTML (clear st) (parse (pageResultToString pr))).doc.headScripts.map
          (fun s => (ParentTag.headTag, s))
        ++ (loadHTML (clear st) (parse (pageResultToString pr))).doc.body.scripts.map
          (fun s => (ParentTag.bodyTag, s))
        ++ (parse (pageResultToString pr)).headScripts.map
          (fun s => (ParentTag.headTag, s)))
      (loadHTML (clear st) (parse (pageResultToString pr))) with ⟨new, h⟩
  exact ⟨new, h⟩

/-- Store growth under `navigate`. -/
theorem navigate_store_append (parse : String → DomDoc) (fetchFn : String → FetchOutcome)
    (input : NavInput) (st : RouterState) :
    ∃ new, (navigate parse fetchFn input st).scriptsStore = st.scriptsStore ++ new := by
  cases hg : getPage (fetchFn (getUrl input)) with
  | error e =>
    have hu : navigateUncaught parse fetchFn input st = Except.error e := by
      unfold navigateUncaught
      rw [hg]
    rw [navigate_of_uncaught_err parse fetchFn input st e hu]
    exact ⟨[], (List.append_nil _).symm⟩
  | ok pr =>
    have hu : navigateUncaught parse fetchFn input st
        = Except.ok (renderPipeline parse pr (getUrl input) st) := by
      unfold navigateUncaught
      rw [hg]
    rw [navigate_of_uncaught_ok parse fetchFn input st _ hu]
    exact renderPipeline_store_append parse pr (getUrl input) st

/-- Store growth under any single operation. -/
theorem applyOp_store_append (parse : String → DomDoc) (fetchFn : String → FetchOutcome)
    (op : RouterOp) (st : RouterState) :
    ∃ new, (applyOp parse fetchFn op st).scriptsStore = st.scriptsStore ++ new := by
  cases op with
  | opClear => exact ⟨[], (List.append_nil _).symm⟩
  | opLoadHead sc =>
    by_cases h : isNotInitialScript st sc
    · refine ⟨[sc], ?_⟩
      show (loadHeadScripts st sc).scriptsStore = _
      unfold loadHeadScripts
      rw [if_pos h]
    · refine ⟨[], ?_⟩
      show (loadHeadScripts st sc).scriptsStore = _
      unfold loadHeadScripts
      rw [if_neg h]
      exact (List.append_nil _).symm
  | opLoadBody sc => exact ⟨[], (List.append_nil _).symm⟩
  | opLoadHTML h => exact ⟨[], (List.append_nil _).symm⟩
  | opRunScripts cs => exact runScripts_store_append cs st
  | opNavigate input => exact navigate_store_append parse fetchFn input st

/-- Store growth along any operation sequence. -/
theorem runOps_store_append (parse : String → DomDoc) (fetchFn : String → FetchOutcome) :
    ∀ (ops : List RouterOp) (st : RouterState),
      ∃ new, (runOps parse fetchFn ops st).scriptsStore = st.scriptsStore ++ new := by
  intro ops
  induction ops with
  | nil => intro st; exact ⟨[], (List.append_nil _).symm⟩
  | cons op rest ih =>
    intro st
    rcases applyOp_store_append parse fetchFn op st with ⟨n1, h1⟩
    rcases ih (applyOp parse fetchFn op st) with ⟨n2, h2⟩
    refine ⟨n1 ++ n2, ?_⟩
    show (runOps parse fetchFn rest (applyOp parse fetchFn op st)).scriptsStore
        = st.scriptsStore ++ (n1 ++ n2)
    rw [h2, h1, List.append_assoc]

/-- C9: across every sequence of Router operations the injected-script
registry only ever grows by appending (so its length is monotonically
non-decreasing), `clear()` leaves the registry itself untouched, and
each `clear()` re-processes every element ever stored — removing its
identity from both the live head and the live body. -/
theorem scriptsStore_never_shrinks (parse : String → DomDoc) (fetchFn : String → FetchOutcome) :
    (∀ (ops : List RouterOp) (st : RouterState),
        ∃ new, (runOps parse fetchFn ops st).scriptsStore = st.scriptsStore ++ new)
    ∧ (∀ (ops : List RouterOp) (st : RouterState),
        st.scriptsStore.length ≤ (runOps parse fetchFn ops st).scriptsStore.length)
    ∧ (∀ st : RouterState, (clear st).scriptsStore = st.scriptsStore)
    ∧ (∀ st : RouterState, ∀ s ∈ st.scriptsStore,
        (∀ u ∈ (clear st).doc.headScripts, u.sid ≠ s.sid)
        ∧ (∀ u ∈ (clear st).doc.body.scripts, u.sid ≠ s.sid)) := by
  refine ⟨runOps_store_append parse fetchFn, ?_, fun st => rfl, ?_⟩
  · intro ops st
    rcases runOps_store_append parse fetchFn ops st with ⟨new, h⟩
    rw [h, List.length_append]
    omega
  · intro st s hs
    constructor
    · intro u hu
      rcases List.mem_filter.mp hu with ⟨hu1, hu2⟩
      simp only [Bool.not_eq_true', List.any_eq_false, beq_iff_eq] at hu2
      exact fun hcon => hu2 s hs hcon.symm
    · intro u hu
      rcases List.mem_filter.mp hu with ⟨hu1, hu2⟩
      simp only [Bool.not_eq_true', List.any_eq_false, beq_iff_eq] at hu2
      exact fun hcon => hu2 s hs hcon.symm

/-- C9, witness: the stored `injW` keeps its registry entry while its
identity is purged from the live document of `stC8`. -/
theorem scriptsStore_never_shrinks_witness :
    injW ∈ stC8.scriptsStore
    ∧ ((∀ u ∈ (clear stC8).doc.headScripts, u.sid ≠ injW.sid)
      ∧ (∀ u ∈ (clear stC8).doc.body.scripts, u.sid ≠ injW.sid)) :=
  ⟨by decide, (scriptsStore_never_shrinks parse0 fetch0).2.2.2 stC8 injW (by decide)⟩

end ClaimsScripts
